import Mathlib

/-!
Verification of the goomba/tetromino Game Boy emulator core.

The Go sources are shallowly embedded: memory is a byte-valued function on
16-bit addresses, machine integers are `Nat` with explicit `% 256` where the
Go code narrows to `uint8`, and Go `panic` branches are modelled as `none` of
an `Option` result.
-/

set_option maxRecDepth 100000

namespace Goomba

/-- Memory is modelled as a function from addresses to stored bytes
(`mem.Memory` in the Go source exposes `Read(addr) *uint8`). -/
def Mem : Type := Nat → Nat

/-- Reading a byte from memory (`*mem.Read(addr)` is a `uint8`). -/
def readMem (m : Mem) (a : Nat) : Nat := m a % 256

/-- Writing a byte to memory (`*mem.Read(addr) = v`). -/
def writeMem (m : Mem) (a v : Nat) : Mem := Function.update m a v

/-- Address of the interrupt flag register IF (0xFF0F), `mem.IF`. -/
def addrIF : Nat := 0xFF0F

/-- Address of the STAT register (0xFF41), `mem.STAT`. -/
def addrSTAT : Nat := 0xFF41

/-- Address of the LY register (0xFF44), `mem.LY`. -/
def addrLY : Nat := 0xFF44

/-- Address of the LYC register (0xFF45), read directly in `Tick`. -/
def addrLYC : Nat := 0xFF45

/-- The mode value computed by the first `switch` of `LCD.Tick`
(`lcd.go` lines 36-56).  The Go `default:` arm panics, but it is
unreachable: the final guard `lyRemainder < 114` always holds because
`lyRemainder = cycle % 114`, so the last arm is written as the `else`. -/
def statMode (ly lyRemainder : Nat) : Nat :=
  if ly = 144 then 1
  else if ly > 144 then 1
  else if lyRemainder < 20 then 2
  else if lyRemainder < 63 then 3
  else 0

/-- `LCD.Tick` from `lcd.go`: one LCD machine cycle.  `ly = uint8(cycle/114)`
is modelled as `(cycle / 114) % 256`.  In the `ly == 144` arm the Go code
also performs `*memory.Read(mem.IF) |= 0x01`.  Then the coincidence bits
(`stat |= 0x44` / `stat &^= 0x44`, the latter being and-with `^0x44 = 0xBB`),
the interrupt bits on STAT, and finally the writes to STAT and LY. -/
def Tick (m : Mem) (cycle : Nat) : Mem :=
  let ly := (cycle / 114) % 256
  let lyRemainder := cycle % 114
  let m1 := if ly = 144 then writeMem m addrIF (readMem m addrIF ||| 0x01) else m
  let stat0 := statMode ly lyRemainder
  let stat1 := if ly = readMem m1 addrLYC then stat0 ||| 0x44 else stat0 &&& 0xBB
  let stat2 :=
    if ly = 144 then stat1 ||| 0x10
    else if lyRemainder = 0 then stat1 ||| 0x20
    else if lyRemainder = 63 then stat1 ||| 0x08
    else stat1
  writeMem (writeMem m1 addrSTAT stat2) addrLY ly

/-- The LCD mode claimed by the specification, as a function of the line
`ly` and the machine-cycle remainder within the line: mode 2 when
`ly < 144` and the remainder is below 20 (80 dots), mode 3 below 63
(252 dots), mode 0 for the rest of a visible line, mode 1 when `ly >= 144`. -/
def claimedMode (ly lyRemainder : Nat) : Nat :=
  if 144 ≤ ly then 1
  else if lyRemainder < 20 then 2
  else if lyRemainder < 63 then 3
  else 0

lemma readMem_lt (m : Mem) (a : Nat) : readMem m a < 256 :=
  Nat.mod_lt _ (by norm_num)

lemma readMem_writeMem_self (m : Mem) (a v : Nat) :
    readMem (writeMem m a v) a = v % 256 := by
  simp [readMem, writeMem]

lemma readMem_writeMem_ne (m : Mem) (a b v : Nat) (h : b ≠ a) :
    readMem (writeMem m a v) b = readMem m b := by
  simp [readMem, writeMem, Function.update_noteq h]

/-- Byte-level facts about the STAT bit operations used in `Tick`:
or-ing 0x44/0x10/0x20/0x08 and and-ing 0xBB neither change the low two
bits of a byte nor leave the byte range. -/
lemma stat_bit_ops : ∀ x < 256,
    (x ||| 0x44) % 4 = x % 4 ∧ (x &&& 0xBB) % 4 = x % 4 ∧
    (x ||| 0x10) % 4 = x % 4 ∧ (x ||| 0x20) % 4 = x % 4 ∧
    (x ||| 0x08) % 4 = x % 4 ∧
    (x ||| 0x44) < 256 ∧ (x &&& 0xBB) < 256 ∧
    (x ||| 0x10) < 256 ∧ (x ||| 0x20) < 256 ∧ (x ||| 0x08) < 256 := by
  decide

/-- The source mode computation agrees with the specification's mode table
on every in-frame line and remainder. -/
lemma statMode_eq_claimedMode : ∀ ly < 154, ∀ r < 114,
    statMode ly r = claimedMode ly r := by
  decide

lemma statMode_lt_four (ly r : Nat) : statMode ly r < 4 := by
  unfold statMode
  split <;> [omega; split <;> [omega; split <;> [omega; split <;> omega]]]

/-- The chain of STAT bit operations performed after the mode is chosen
(coincidence, then the interrupt bits) leaves the low two bits equal to the
mode value. -/
lemma stat_pipeline (q r L s0 : Nat) (h0 : s0 < 4) :
    ((if q = 144 then (if q = L then s0 ||| 0x44 else s0 &&& 0xBB) ||| 0x10
      else if r = 0 then (if q = L then s0 ||| 0x44 else s0 &&& 0xBB) ||| 0x20
      else if r = 63 then (if q = L then s0 ||| 0x44 else s0 &&& 0xBB) ||| 0x08
      else (if q = L then s0 ||| 0x44 else s0 &&& 0xBB)) % 256) % 4 = s0 := by
  have h0' : s0 < 256 := by omega
  obtain ⟨e44, eBB, _, _, _, l44, lBB, _, _, _⟩ := stat_bit_ops s0 h0'
  have hA : (if q = L then s0 ||| 0x44 else s0 &&& 0xBB) % 4 = s0 % 4 ∧
      (if q = L then s0 ||| 0x44 else s0 &&& 0xBB) < 256 := by
    split
    · exact ⟨e44, l44⟩
    · exact ⟨eBB, lBB⟩
  obtain ⟨hA4, hA256⟩ := hA
  obtain ⟨_, _, e10, e20, e08, _, _, l10, l20, l08⟩ := stat_bit_ops _ hA256
  have hs0 : s0 % 4 = s0 := Nat.mod_eq_of_lt h0
  split
  · rw [Nat.mod_eq_of_lt l10, e10, hA4, hs0]
  · split
    · rw [Nat.mod_eq_of_lt l20, e20, hA4, hs0]
    · split
      · rw [Nat.mod_eq_of_lt l08, e08, hA4, hs0]
      · rw [Nat.mod_eq_of_lt hA256, hA4, hs0]

/-- C3: after every in-frame LCD machine-cycle tick, the low two bits of the
STAT register equal the mode determined by `(ly, lx)` — 2 for the first 20
machine cycles (80 dots) of a visible line, 3 below 63 (252 dots), 0 for the
rest of a visible line, and 1 on lines 144 and above — and that mode is one
of 0, 1, 2, 3. -/
theorem claim_C3_stat_reports_mode (m : Mem) (cycle : Nat) (hc : cycle < 17556) :
    readMem (Tick m cycle) addrSTAT % 4 = claimedMode (cycle / 114) (cycle % 114) ∧
    claimedMode (cycle / 114) (cycle % 114) < 4 := by
  have hr : cycle % 114 < 114 := Nat.mod_lt _ (by norm_num)
  have hq : cycle / 114 < 154 := (Nat.div_lt_iff_lt_mul (by norm_num)).mpr (by omega)
  have hly : (cycle / 114) % 256 = cycle / 114 := Nat.mod_eq_of_lt (by omega)
  have hmode := statMode_eq_claimedMode (cycle / 114) hq (cycle % 114) hr
  constructor
  · simp only [Tick]
    rw [readMem_writeMem_ne _ _ _ _ (by decide : addrSTAT ≠ addrLY),
      readMem_writeMem_self, hly, stat_pipeline _ _ _ _ (statMode_lt_four _ _)]
    exact hmode
  · rw [← hmode]
    exact statMode_lt_four _ _

/-- Iterating the LCD over the machine cycles of a frame: `tickN m n` is the
memory after running `Tick` on cycles `0, 1, ..., n-1` in order, as the
frame loop does. -/
def tickN (m : Mem) : Nat → Mem
  | 0 => m
  | n + 1 => Tick (tickN m n) n

lemma byte_or_one : ∀ x < 256, (x ||| 1) < 256 ∧ (x ||| 1) &&& 1 = 1 := by
  decide

/-- Away from line 144, `Tick` leaves the interrupt flag untouched. -/
lemma tick_IF_of_ne (m : Mem) (c : Nat) (h : (c / 114) % 256 ≠ 144) :
    readMem (Tick m c) addrIF = readMem m addrIF := by
  simp only [Tick, if_neg h]
  rw [readMem_writeMem_ne _ _ _ _ (by decide : addrIF ≠ addrLY),
    readMem_writeMem_ne _ _ _ _ (by decide : addrIF ≠ addrSTAT)]

/-- On line 144, `Tick` ORs 0x01 into the interrupt flag. -/
lemma tick_IF_of_eq (m : Mem) (c : Nat) (h : (c / 114) % 256 = 144) :
    readMem (Tick m c) addrIF = readMem m addrIF ||| 1 := by
  simp only [Tick, if_pos h]
  rw [readMem_writeMem_ne _ _ _ _ (by decide : addrIF ≠ addrLY),
    readMem_writeMem_ne _ _ _ _ (by decide : addrIF ≠ addrSTAT),
    readMem_writeMem_self]
  exact Nat.mod_eq_of_lt (byte_or_one _ (readMem_lt m addrIF)).1

/-- Once IF bit 0 is set, no LCD tick ever clears it. -/
lemma tick_IF_bit0_mono (m : Mem) (c : Nat) (h : readMem m addrIF &&& 1 = 1) :
    readMem (Tick m c) addrIF &&& 1 = 1 := by
  rcases eq_or_ne ((c / 114) % 256) 144 with he | hne
  · rw [tick_IF_of_eq m c he]
    exact (byte_or_one _ (readMem_lt m addrIF)).2
  · rw [tick_IF_of_ne m c hne]
    exact h

/-- During cycles 0..16415 (lines 0..143) the LCD never touches IF. -/
lemma tickN_IF_before (m : Mem) : ∀ n, n ≤ 16416 →
    readMem (tickN m n) addrIF = readMem m addrIF := by
  intro n
  induction n with
  | zero => intro _; rfl
  | succ n ih =>
    intro hn
    have hdiv : n / 114 < 144 := (Nat.div_lt_iff_lt_mul (by norm_num)).mpr (by omega)
    have hne : (n / 114) % 256 ≠ 144 := by
      rw [Nat.mod_eq_of_lt (by omega)]; omega
    show readMem (Tick (tickN m n) n) addrIF = readMem m addrIF
    rw [tick_IF_of_ne _ _ hne]
    exact ih (by omega)

/-- From cycle 16416 (the first cycle of line 144) onwards, IF bit 0 is set. -/
lemma tickN_IF_after (m : Mem) : ∀ n, 16417 ≤ n →
    readMem (tickN m n) addrIF &&& 1 = 1 := by
  intro n hn
  induction n, hn using Nat.le_induction with
  | base =>
    show readMem (Tick (tickN m 16416) 16416) addrIF &&& 1 = 1
    rw [tick_IF_of_eq _ _ (by norm_num)]
    exact (byte_or_one _ (readMem_lt _ addrIF)).2
  | succ n hn ih =>
    exact tick_IF_bit0_mono _ _ ih

/-- C5: over a complete frame (LCD ticks at cycles 0..17555), starting with
IF bit 0 clear, the bit is 1 after exactly the ticks from cycle 16416
onwards, it undergoes exactly one 0-to-1 transition, and that transition is
where `ly` moves from 143 to 144. -/
theorem claim_C5_vblank_once_per_frame (m : Mem)
    (h0 : readMem m addrIF &&& 1 = 0) :
    (∀ n, n ≤ 17556 → (readMem (tickN m n) addrIF &&& 1 = 1 ↔ 16417 ≤ n)) ∧
    (∃! k, k < 17556 ∧ readMem (tickN m k) addrIF &&& 1 = 0 ∧
      readMem (tickN m (k + 1)) addrIF &&& 1 = 1) ∧
    readMem (tickN m 16416) addrIF &&& 1 = 0 ∧
    readMem (tickN m 16417) addrIF &&& 1 = 1 ∧
    16416 / 114 = 144 ∧ 16415 / 114 = 143 := by
  have hA : ∀ n, n ≤ 16416 → readMem (tickN m n) addrIF &&& 1 = 0 := by
    intro n hn
    rw [tickN_IF_before m n hn]
    exact h0
  have hiff : ∀ n, n ≤ 17556 → (readMem (tickN m n) addrIF &&& 1 = 1 ↔ 16417 ≤ n) := by
    intro n _
    constructor
    · intro h1
      by_contra hlt
      have := hA n (by omega)
      omega
    · exact tickN_IF_after m n
  refine ⟨hiff, ⟨16416, ⟨by norm_num, hA 16416 le_rfl, tickN_IF_after m 16417 le_rfl⟩, ?_⟩,
    hA 16416 le_rfl, tickN_IF_after m 16417 le_rfl, by norm_num, by norm_num⟩
  rintro k ⟨hk, hk0, hk1⟩
  have h1 : ¬ 16417 ≤ k := by
    intro hge
    have := tickN_IF_after m k hge
    omega
  have h2 : 16417 ≤ k + 1 := by
    by_contra hh
    have := hA (k + 1) (by omega)
    omega
  omega

/-! ### The tile renderer (`drawTiles`, `tileDataAddr`, `pixel` in lcd.go) -/

/-- Address of the LCDC register (0xFF40). -/
def addrLCDC : Nat := 0xFF40

/-- Address of the SCY register (0xFF42). -/
def addrSCY : Nat := 0xFF42

/-- Address of the SCX register (0xFF43). -/
def addrSCX : Nat := 0xFF43

/-- Address of the BGP register (0xFF47). -/
def addrBGP : Nat := 0xFF47

/-- Modelled from the spec: the Go helper `highBgTileMapDisplaySelect` is
referenced by lcd.go but its definition is not under `src/`; per the spec the
tile map base is 0x9C00 when LCDC bit 3 is set, else 0x9800. -/
def highBgTileMapDisplaySelect (m : Mem) : Bool :=
  readMem m addrLCDC &&& 0x08 != 0

/-- Modelled from the spec: the Go helper `lowTileDataSelect` is referenced
by lcd.go but its definition is not under `src/`; per the spec LCDC bit 4
selects the unsigned 0x8000-based tile data addressing. -/
def lowTileDataSelect (m : Mem) : Bool :=
  readMem m addrLCDC &&& 0x10 != 0

/-- `lowTileAbsoluteAddress` from lcd.go. -/
def lowTileAbsoluteAddress (tileNumber : Nat) : Nat :=
  0x8000 + tileNumber * 16

/-- `highTileAbsoluteAddress` from lcd.go: `uint16(0x9000 + int(tn)*16)`.
For a signed tile number the value lies in [0x8800, 0x97F0], so the
`uint16` conversion is the identity and `Int.toNat` is exact. -/
def highTileAbsoluteAddress (tileNumber : Int) : Nat :=
  (0x9000 + tileNumber * 16).toNat

/-- The Go conversion `int8(uint8)`: two's-complement reinterpretation. -/
def int8 (v : Nat) : Int :=
  if v < 128 then (v : Int) else (v : Int) - 256

/-- The source's inverted bit constants (lcd.go lines 9-18: `bit7 = 1 << iota`
starting at iota = 0, so `bit7 = 0x01` ... `bit0 = 0x80`). -/
def bit7 : Nat := 0x01

def bit6 : Nat := 0x02

def bit5 : Nat := 0x04

def bit4 : Nat := 0x08

def bit3 : Nat := 0x10

def bit2 : Nat := 0x20

def bit1 : Nat := 0x40

def bit0 : Nat := 0x80

/-- The `switch bit` body of `pixel` in lcd.go, on the two row bytes.
The `default:` arm panics in Go and is modelled as `none`. -/
def pixelOf (a b bit : Nat) : Option Nat :=
  match bit with
  | 0 => some ((a &&& bit0) >>> 7 ||| (b &&& bit0) >>> 6)
  | 1 => some ((a &&& bit1) >>> 6 ||| (b &&& bit1) >>> 5)
  | 2 => some ((a &&& bit2) >>> 5 ||| (b &&& bit2) >>> 4)
  | 3 => some ((a &&& bit3) >>> 4 ||| (b &&& bit3) >>> 3)
  | 4 => some ((a &&& bit4) >>> 3 ||| (b &&& bit4) >>> 2)
  | 5 => some ((a &&& bit5) >>> 2 ||| (b &&& bit5) >>> 1)
  | 6 => some ((a &&& bit6) >>> 1 ||| (b &&& bit6))
  | 7 => some ((a &&& bit7) ||| (b &&& bit7) <<< 1)
  | _ => none

/-- `pixel` from lcd.go: reads the two bytes of a tile row and extracts the
two-bit colour of one column. -/
def pixel (m : Mem) (memoryAddr : Nat) (bit : Nat) : Option Nat :=
  pixelOf (readMem m memoryAddr) (readMem m (memoryAddr + 1)) bit

/-- `tileDataAddr` from lcd.go. -/
def tileDataAddr (m : Mem) (tileX tileY : Nat) : Nat :=
  let tileIndex := tileY * 32 + tileX
  let tileNumberAddr :=
    if highBgTileMapDisplaySelect m then 0x9C00 + tileIndex
    else 0x9800 + tileIndex
  let tileNumber := readMem m tileNumberAddr
  if lowTileDataSelect m then lowTileAbsoluteAddress tileNumber
  else highTileAbsoluteAddress (int8 tileNumber)

/-- The loop body of `drawTiles` in lcd.go: the byte stored at
`data[lcdY*160+lcdX]`.  `scrX`/`scrY` are hard-coded to 0 in the source
(`// FIXME scroll register`), and the `uint8` additions overflow modulo 256.
`pixel`'s `none` case is the Go panic; it is unreachable here because
`tileOffsetX < 8`, so the `getD 0` default is never used. -/
def drawTilesPixel (m : Mem) (lcdX lcdY : Nat) : Nat :=
  let scrX := 0
  let scrY := 0
  let vramX := (lcdX + scrX) % 256
  let vramY := (lcdY + scrY) % 256
  let tileX := vramX / 8
  let tileY := vramY / 8
  let tileAddr := tileDataAddr m tileX tileY
  let tileOffsetX := vramX % 8
  let tileOffsetY := vramY % 8
  let memoryAddr := tileAddr + tileOffsetY * 2
  (pixel m memoryAddr tileOffsetX).getD 0

/-- The inner `for lcdX` loop of `drawTiles`: writes columns 0..n-1 of row
`lcdY` into the frame data, in order. -/
def writePixels (m : Mem) (lcdY : Nat) : Nat → (Nat → Nat) → (Nat → Nat)
  | 0, data => data
  | x + 1, data =>
    Function.update (writePixels m lcdY x data) (lcdY * 160 + x)
      (drawTilesPixel m x lcdY)

/-- The outer `for lcdY` loop of `drawTiles`: rows 0..n-1, in order. -/
def drawRows (m : Mem) : Nat → (Nat → Nat) → (Nat → Nat)
  | 0, data => data
  | y + 1, data => writePixels m y 160 (drawRows m y data)

/-- `drawTiles` from lcd.go, acting on the zero-initialised `data` array of
the `LCD` struct; the result maps each index to the stored byte. -/
def drawTiles (m : Mem) : Nat → Nat :=
  drawRows m 144 (fun _ => 0)

lemma writePixels_get_lt (m : Mem) (y : Nat) (d : Nat → Nat) :
    ∀ n x, x < n → writePixels m y n d (y * 160 + x) = drawTilesPixel m x y := by
  intro n
  induction n with
  | zero => intro x hx; exact absurd hx (Nat.not_lt_zero x)
  | succ n ih =>
    intro x hx
    show Function.update (writePixels m y n d) (y * 160 + n)
      (drawTilesPixel m n y) (y * 160 + x) = _
    rcases eq_or_lt_of_le (Nat.lt_succ_iff.mp hx) with he | hlt
    · rw [he, Function.update_same]
    · rw [Function.update_noteq (by omega : y * 160 + x ≠ y * 160 + n)]
      exact ih x hlt

lemma writePixels_get_ne (m : Mem) (y : Nat) (d : Nat → Nat) (j : Nat) :
    ∀ n, (∀ x, x < n → j ≠ y * 160 + x) → writePixels m y n d j = d j := by
  intro n
  induction n with
  | zero => intro _; rfl
  | succ n ih =>
    intro hj
    show Function.update (writePixels m y n d) (y * 160 + n)
      (drawTilesPixel m n y) j = _
    rw [Function.update_noteq (hj n (Nat.lt_succ_self n))]
    exact ih fun x hx => hj x (by omega)

lemma drawRows_get (m : Mem) (d : Nat → Nat) (x y : Nat) (hx : x < 160) :
    ∀ n, y < n → drawRows m n d (y * 160 + x) = drawTilesPixel m x y := by
  intro n
  induction n with
  | zero => intro hy; exact absurd hy (Nat.not_lt_zero y)
  | succ n ih =>
    intro hy
    show writePixels m n 160 (drawRows m n d) (y * 160 + x) = _
    rcases eq_or_lt_of_le (Nat.lt_succ_iff.mp hy) with he | hlt
    · rw [he]
      exact writePixels_get_lt m n _ 160 x hx
    · rw [writePixels_get_ne m n _ _ 160 (by intro x' hx'; omega)]
      exact ih hlt

/-- Each frame-data byte produced by `drawTiles` is the per-pixel loop-body
value: every index is written exactly once. -/
lemma drawTiles_get (m : Mem) (x y : Nat) (hx : x < 160) (hy : y < 144) :
    drawTiles m (y * 160 + x) = drawTilesPixel m x y :=
  drawRows_get m _ x y hx 144 hy

lemma mask_shift (a i : Nat) : (a &&& 2 ^ i) >>> i = a >>> i &&& 1 := by
  rw [Nat.and_two_pow, Nat.shiftRight_eq_div_pow, Nat.shiftRight_eq_div_pow,
    Nat.and_one_is_mod, Nat.mul_div_cancel _ (Nat.two_pow_pos i),
    Nat.testBit_to_div_mod]
  rcases Nat.mod_two_eq_zero_or_one (a / 2 ^ i) with h | h <;> simp [h]

lemma mask_shift_pred (a i : Nat) (hi : 1 ≤ i) :
    (a &&& 2 ^ i) >>> (i - 1) = (a >>> i &&& 1) <<< 1 := by
  rw [Nat.and_two_pow, Nat.shiftRight_eq_div_pow, Nat.shiftRight_eq_div_pow,
    Nat.and_one_is_mod, Nat.shiftLeft_eq, Nat.testBit_to_div_mod,
    Nat.mul_div_assoc _ (pow_dvd_pow 2 (by omega : i - 1 ≤ i)),
    Nat.pow_div (by omega) (by norm_num),
    show i - (i - 1) = 1 by omega]
  rcases Nat.mod_two_eq_zero_or_one (a / 2 ^ i) with h | h <;> simp [h]

lemma pixelOf_shift_case (a b i : Nat) (hi : 1 ≤ i) :
    (a &&& 2 ^ i) >>> i ||| (b &&& 2 ^ i) >>> (i - 1)
      = (b >>> i &&& 1) <<< 1 ||| (a >>> i &&& 1) := by
  rw [mask_shift, mask_shift_pred _ _ hi, Nat.or_comm]

/-- The 8-case bit switch of `pixel` agrees with the MSB-first shift formula
of the spec: low bit from the first row byte, high bit from the second. -/
lemma pixelOf_shift (a b k : Nat) (hk : k < 8) :
    pixelOf a b k = some ((b >>> (7 - k) &&& 1) <<< 1 ||| (a >>> (7 - k) &&& 1)) := by
  interval_cases k
  · exact congrArg some (by
      have h := pixelOf_shift_case a b 7 (by norm_num)
      rw [show (2 : Nat) ^ 7 = 128 by norm_num, show (7 : Nat) - 1 = 6 by norm_num] at h
      exact h)
  · exact congrArg some (by
      have h := pixelOf_shift_case a b 6 (by norm_num)
      rw [show (2 : Nat) ^ 6 = 64 by norm_num, show (6 : Nat) - 1 = 5 by norm_num] at h
      exact h)
  · exact congrArg some (by
      have h := pixelOf_shift_case a b 5 (by norm_num)
      rw [show (2 : Nat) ^ 5 = 32 by norm_num, show (5 : Nat) - 1 = 4 by norm_num] at h
      exact h)
  · exact congrArg some (by
      have h := pixelOf_shift_case a b 4 (by norm_num)
      rw [show (2 : Nat) ^ 4 = 16 by norm_num, show (4 : Nat) - 1 = 3 by norm_num] at h
      exact h)
  · exact congrArg some (by
      have h := pixelOf_shift_case a b 3 (by norm_num)
      rw [show (2 : Nat) ^ 3 = 8 by norm_num, show (3 : Nat) - 1 = 2 by norm_num] at h
      exact h)
  · exact congrArg some (by
      have h := pixelOf_shift_case a b 2 (by norm_num)
      rw [show (2 : Nat) ^ 2 = 4 by norm_num, show (2 : Nat) - 1 = 1 by norm_num] at h
      exact h)
  · exact congrArg some (by
      have h := pixelOf_shift_case a b 1 (by norm_num)
      rw [show (2 : Nat) ^ 1 = 2 by norm_num, show (1 : Nat) - 1 = 0 by norm_num,
        Nat.shiftRight_zero] at h
      exact h)
  · exact congrArg some (by
      rw [Nat.shiftRight_zero, Nat.shiftRight_zero, Nat.or_comm]
      rfl)

lemma two_bits_lt_four : ∀ p ≤ 1, ∀ q ≤ 1, q <<< 1 ||| p < 4 := by
  decide

/-- All-zero memory, used to instantiate universally quantified theorems. -/
def zeroMem : Mem := fun _ => 0

/-- The background shade of one pixel exactly as claim C4 states it:
`bx = (x+SCX) & 0xFF`, `by = (ly+SCY) & 0xFF`, tile map base 0x9C00 when
LCDC bit 3 else 0x9800, tile data at 0x8000+idx*16 (unsigned) when LCDC
bit 4 else 0x9000+(signed idx)*16, two bits MSB-first from the row bytes at
row `by % 8`, column bit `7 - bx % 8`, combined `(b1 << 1) | b0`, mapped
through the BGP palette register. -/
def bgShadeClaimed (m : Mem) (x ly : Nat) : Nat :=
  let bx := (x + readMem m addrSCX) % 256
  let by' := (ly + readMem m addrSCY) % 256
  let tileMapIndex := by' / 8 * 32 + bx / 8
  let tileMapAddr :=
    if highBgTileMapDisplaySelect m then 0x9C00 + tileMapIndex
    else 0x9800 + tileMapIndex
  let idx := readMem m tileMapAddr
  let rowBase :=
    (if lowTileDataSelect m then 0x8000 + idx * 16
     else (0x9000 + int8 idx * 16).toNat) + by' % 8 * 2
  let b0 := readMem m rowBase >>> (7 - bx % 8) &&& 1
  let b1 := readMem m (rowBase + 1) >>> (7 - bx % 8) &&& 1
  let colourIndex := b1 <<< 1 ||| b0
  readMem m addrBGP >>> (2 * colourIndex) &&& 3

/-- The background pixel of claim C4 as amended to match the code: SCX and
SCY are treated as 0 and the raw 0-3 colour index is stored without BGP
mapping; the tile addressing and MSB-first bit extraction are as claimed. -/
def bgShadeAmended (m : Mem) (x ly : Nat) : Nat :=
  let bx := x % 256
  let by' := ly % 256
  let tileMapIndex := by' / 8 * 32 + bx / 8
  let tileMapAddr :=
    if highBgTileMapDisplaySelect m then 0x9C00 + tileMapIndex
    else 0x9800 + tileMapIndex
  let idx := readMem m tileMapAddr
  let rowBase :=
    (if lowTileDataSelect m then 0x8000 + idx * 16
     else (0x9000 + int8 idx * 16).toNat) + by' % 8 * 2
  let b0 := readMem m rowBase >>> (7 - bx % 8) &&& 1
  let b1 := readMem m (rowBase + 1) >>> (7 - bx % 8) &&& 1
  b1 <<< 1 ||| b0

/-- The loop body of `drawTiles` computes exactly the amended background
shade: this connects the source's switch-based bit extraction with the
spec's MSB-first shift formulation. -/
lemma drawTilesPixel_eq_amended (m : Mem) (x y : Nat) :
    drawTilesPixel m x y = bgShadeAmended m x y := by
  simp only [drawTilesPixel, bgShadeAmended, pixel, tileDataAddr,
    lowTileAbsoluteAddress, highTileAbsoluteAddress, Nat.add_zero]
  rw [pixelOf_shift _ _ _ (Nat.mod_lt _ (by norm_num)), Option.getD_some]

lemma drawTilesPixel_lt_four (m : Mem) (x y : Nat) : drawTilesPixel m x y < 4 := by
  simp only [drawTilesPixel, pixel, Nat.add_zero]
  rw [pixelOf_shift _ _ _ (Nat.mod_lt _ (by norm_num)), Option.getD_some]
  exact two_bits_lt_four _ Nat.and_le_right _ Nat.and_le_right

/-- Concrete memory refuting claim C4 as stated: LCDC = 0x91 (bits 0 and 4
set), tile map all zero, tile 0 row 0 bytes 0xFF 0xFF, and BGP = 0x00, so
the claimed BGP mapping would send colour index 3 to shade 0 while the code
stores the raw index 3. -/
def memC4 : Mem := fun a =>
  if a = 0xFF40 then 0x91
  else if a = 0x8000 then 0xFF
  else if a = 0x8001 then 0xFF
  else 0

/-- C4 (counterexample): with LCDC bit 0 set, SCX = SCY = 0, BGP = 0 and a
tile whose first row is solid colour 3, the code stores 3 at pixel (0,0)
whereas the claimed BGP-mapped shade is 0 — the claim as stated fails
because `drawTiles` never applies the BGP palette (and hard-codes the
scroll registers to zero). -/
theorem claim_C4_counterexample :
    readMem memC4 addrLCDC &&& 0x01 = 1 ∧
    drawTiles memC4 (0 * 160 + 0) = 3 ∧ bgShadeClaimed memC4 0 0 = 0 ∧
    drawTiles memC4 (0 * 160 + 0) ≠ bgShadeClaimed memC4 0 0 := by
  have h : drawTiles memC4 (0 * 160 + 0) = drawTilesPixel memC4 0 0 :=
    drawTiles_get memC4 0 0 (by norm_num) (by norm_num)
  refine ⟨by decide, ?_, by decide, ?_⟩
  · rw [h]; decide
  · rw [h]; decide

/-- C4 (amended): every background pixel drawn by `drawTiles` equals the
claimed computation with SCX and SCY treated as 0 and without the BGP
mapping: tile map base by LCDC bit 3, tile data by LCDC bit 4
(unsigned/signed), two bits MSB-first from the row bytes at row `by % 8`,
column bit `7 - bx % 8`, combined `(b1 << 1) | b0`. -/
theorem claim_C4_amended_background_pixel (m : Mem) (x y : Nat)
    (hx : x < 160) (hy : y < 144) :
    drawTiles m (y * 160 + x) = bgShadeAmended m x y := by
  rw [drawTiles_get m x y hx hy, drawTilesPixel_eq_amended]

theorem claim_C4_amended_witness :
    (0 : Nat) < 160 ∧ (0 : Nat) < 144 ∧
    drawTiles zeroMem (0 * 160 + 0) = bgShadeAmended zeroMem 0 0 :=
  ⟨by norm_num, by norm_num,
    claim_C4_amended_background_pixel zeroMem 0 0 (by norm_num) (by norm_num)⟩

/-! ### The GL renderer (`renderPixel` in the ui package) -/

/-- `renderPixel` from the GL UI source: maps a frame-buffer byte to an
RGBA quadruple; the `default:` arm panics and is modelled as `none`. -/
def renderPixel (p : Nat) : Option (Nat × Nat × Nat × Nat) :=
  match p with
  | 0x00 => some (0xff, 0xff, 0xff, 0xff)
  | 0x01 => some (0xaa, 0xaa, 0xaa, 0xff)
  | 0x02 => some (0x77, 0x77, 0x77, 0xff)
  | 0x03 => some (0x33, 0x33, 0x33, 0xff)
  | 0x10 => some (0xff, 0xaa, 0xaa, 0xff)
  | 0x11 => some (0xaa, 0x77, 0x77, 0xff)
  | 0x12 => some (0x77, 0x33, 0x33, 0xff)
  | 0x13 => some (0x33, 0x00, 0x00, 0xff)
  | 0x20 => some (0xaa, 0xff, 0xaa, 0xff)
  | 0x21 => some (0x77, 0xaa, 0x77, 0xff)
  | 0x22 => some (0x33, 0x77, 0x33, 0xff)
  | 0x23 => some (0x00, 0x33, 0x00, 0xff)
  | 0x30 => some (0xaa, 0xaa, 0xff, 0xff)
  | 0x31 => some (0x77, 0x77, 0xaa, 0xff)
  | 0x32 => some (0x33, 0x33, 0x77, 0xff)
  | 0x33 => some (0x00, 0x00, 0x33, 0xff)
  | _ => none

lemma renderPixel_isSome_of_lt : ∀ p < 4, (renderPixel p).isSome = true := by
  decide

/-- C9: every frame-data byte produced by `drawTiles` is a colour index in
{0,1,2,3}, so the panic arm of the GL renderer's `renderPixel` is
unreachable on frames produced by `drawTiles`. -/
theorem claim_C9_frame_bytes_in_range (m : Mem) (i : Nat) (hi : i < 23040) :
    drawTiles m i < 4 ∧ (renderPixel (drawTiles m i)).isSome = true := by
  have hdecomp : i / 160 * 160 + i % 160 = i := Nat.div_add_mod' i 160
  have hx : i % 160 < 160 := Nat.mod_lt _ (by norm_num)
  have hy : i / 160 < 144 := (Nat.div_lt_iff_lt_mul (by norm_num)).mpr (by omega)
  have hg : drawTiles m i = drawTilesPixel m (i % 160) (i / 160) := by
    conv_lhs => rw [← hdecomp]
    exact drawTiles_get m _ _ hx hy
  rw [hg]
  exact ⟨drawTilesPixel_lt_four m _ _,
    renderPixel_isSome_of_lt _ (drawTilesPixel_lt_four m _ _)⟩

theorem claim_C9_witness :
    (0 : Nat) < 23040 ∧
    (drawTiles zeroMem 0 < 4 ∧ (renderPixel (drawTiles zeroMem 0)).isSome = true) :=
  ⟨by norm_num, claim_C9_frame_bytes_in_range zeroMem 0 (by norm_num)⟩

/-- The grayscale shade table of the palette (value for low bits 0..3). -/
def grayShade (s : Nat) : Nat := [0xff, 0xaa, 0x77, 0x33].getD s 0

/-- An RGBA value is red-biased: green and blue agree and are darker than
red (and the alpha is 0xFF). -/
def redBiased (c : Option (Nat × Nat × Nat × Nat)) : Bool :=
  match c with
  | some (r, g, b, a) => g == b && decide (b < r) && a == 0xff
  | none => false

/-- An RGBA value is green-biased. -/
def greenBiased (c : Option (Nat × Nat × Nat × Nat)) : Bool :=
  match c with
  | some (r, g, b, a) => r == b && decide (b < g) && a == 0xff
  | none => false

/-- An RGBA value is blue-biased. -/
def blueBiased (c : Option (Nat × Nat × Nat × Nat)) : Bool :=
  match c with
  | some (r, g, b, a) => r == g && decide (g < b) && a == 0xff
  | none => false

/-- C7: in the GL renderer's palette, the low two bits select the grayscale
shade (0x00 -> FFFFFFFF, 0x01 -> AAAAAAFF, 0x02 -> 777777FF,
0x03 -> 333333FF), bits 4-5 select the debug tint family (0x10..0x13
red-biased, 0x20..0x23 green-biased, 0x30..0x33 blue-biased), and the
accepted inputs are exactly the bytes with bits 2,3,6,7 clear. -/
theorem claim_C7_palette_table :
    (∀ s < 4, renderPixel s = some (grayShade s, grayShade s, grayShade s, 0xff)) ∧
    (∀ s < 4, redBiased (renderPixel (0x10 + s)) = true ∧
      greenBiased (renderPixel (0x20 + s)) = true ∧
      blueBiased (renderPixel (0x30 + s)) = true) ∧
    (∀ p < 256, ((renderPixel p).isSome = true ↔ p &&& 0xCC = 0)) := by
  exact ⟨by decide, by decide, by decide⟩

theorem claim_C7_palette_witness :
    renderPixel 2 = some (grayShade 2, grayShade 2, grayShade 2, 0xff) ∧
    redBiased (renderPixel (0x10 + 3)) = true ∧
    ((renderPixel 0x05).isSome = true ↔ 0x05 &&& 0xCC = 0) :=
  ⟨claim_C7_palette_table.1 2 (by norm_num),
    (claim_C7_palette_table.2.1 3 (by norm_num)).1,
    claim_C7_palette_table.2.2 0x05 (by norm_num)⟩

theorem claim_C3_witness :
    (0 : Nat) < 17556 ∧
    (readMem (Tick zeroMem 0) addrSTAT % 4 = claimedMode (0 / 114) (0 % 114) ∧
     claimedMode (0 / 114) (0 % 114) < 4) :=
  ⟨by norm_num, claim_C3_stat_reports_mode zeroMem 0 (by norm_num)⟩

theorem claim_C5_witness :
    readMem zeroMem addrIF &&& 1 = 0 ∧
    readMem (tickN zeroMem 16416) addrIF &&& 1 = 0 ∧
    readMem (tickN zeroMem 16417) addrIF &&& 1 = 1 ∧
    16416 / 114 = 144 ∧ 16415 / 114 = 143 := by
  have h := claim_C5_vblank_once_per_frame zeroMem rfl
  exact ⟨rfl, h.2.2.1, h.2.2.2.1, h.2.2.2.2.1, h.2.2.2.2.2⟩

/-- Memory exhibiting the missing STAT interrupt: the CPU has written 0x78
to STAT (all four interrupt-enable bits 3..6 set), and LYC = LY = 0 so the
coincidence condition holds on cycle 0. -/
def memC6 : Mem := fun a => if a = 0xFF41 then 0x78 else 0

/-- C6: evaluation showing the divergence.  At cycle 0, with STAT bit 6
(LYC interrupt enable) set and LY = LYC, the tick records the coincidence
in STAT bit 2 but never raises IF bit 1 (the LCD code contains no write of
that bit at all), and the CPU-written enable bit 3 has been overwritten. -/
theorem claim_C6_no_stat_interrupt :
    readMem memC6 addrSTAT &&& 0x40 = 0x40 ∧
    readMem memC6 addrLYC = readMem (Tick memC6 0) addrLY ∧
    readMem (Tick memC6 0) addrSTAT &&& 0x04 = 0x04 ∧
    readMem (Tick memC6 0) addrIF &&& 0x02 = 0 ∧
    readMem (Tick memC6 0) addrSTAT &&& 0x08 = 0 := by
  decide

/-! ### The orchestrator (`runFrame` in the gb package) -/

/-- The subsystem step functions called once per machine cycle by the
`runFrame` loop.  The bodies of `dispatch.ExecuteMachineCycle`,
`memory.ExecuteMachineCycle`, `lcd.EndMachineCycle`,
`timer.EndMachineCycle`, `lcd.FrameEnd` and `lcd.Frame` are not under
`src/` (only this caller is), so they are abstract transformers of the
machine state `σ`; the timer step returns its interrupt-request flag as in
the source, and `raiseTimerInterrupt` models `gb.memory.IF |= 0x04`. -/
structure Subsys (σ φ : Type) where
  dispatchExecuteMachineCycle : σ → σ
  memoryExecuteMachineCycle : σ → σ
  lcdEndMachineCycle : σ → σ
  timerEndMachineCycle : σ → σ × Bool
  raiseTimerInterrupt : σ → σ
  lcdFrameEnd : σ → σ
  lcdFrame : σ → φ

/-- The orchestrator state visible in `runFrame`: the machine state and the
`gb.frame` counter. -/
structure Gameboy (σ φ : Type) where
  sys : σ
  frame : Nat

/-- The body of the `for mtick` loop in `runFrame`: CPU dispatch, then
memory (DMA), then LCD, then timer, propagating a timer interrupt request
into IF. -/
def machineCycle {σ φ : Type} (S : Subsys σ φ) (s : σ) : σ :=
  let s1 := S.dispatchExecuteMachineCycle s
  let s2 := S.memoryExecuteMachineCycle s1
  let s3 := S.lcdEndMachineCycle s2
  let tr := S.timerEndMachineCycle s3
  if tr.2 then S.raiseTimerInterrupt tr.1 else tr.1

/-- The `for mtick := 0; mtick < n; mtick++` loop of `runFrame`. -/
def runLoop {σ φ : Type} (S : Subsys σ φ) : Nat → σ → σ
  | 0, s => s
  | n + 1, s => runLoop S n (machineCycle S s)

/-- `runFrame` from the orchestrator source: 17556 machine cycles, then
`lcd.FrameEnd()`, then (when a GUI is attached) one `gui.DrawFrame` with
the LCD frame, then `gb.frame++`.  The published frames are returned as a
list; the wall-clock sleep has no effect on emulator state and is not
modelled. -/
def runFrame {σ φ : Type} (S : Subsys σ φ) (gui : Bool) (gb : Gameboy σ φ) :
    Gameboy σ φ × List φ :=
  let s1 := runLoop S 17556 gb.sys
  let s2 := S.lcdFrameEnd s1
  let pubs := if gui then [S.lcdFrame s2] else []
  (⟨s2, gb.frame + 1⟩, pubs)

lemma runLoop_eq_iterate {σ φ : Type} (S : Subsys σ φ) :
    ∀ n s, runLoop S n s = (machineCycle S)^[n] s := by
  intro n
  induction n with
  | zero => intro s; rfl
  | succ n ih =>
    intro s
    show runLoop S n (machineCycle S s) = _
    rw [ih, Function.iterate_succ_apply]

/-- C1: each `runFrame` iteration applies the per-machine-cycle step
exactly 17556 times, performs exactly one `FrameEnd`, publishes exactly one
frame (when a GUI is attached), and increments the frame counter by one. -/
theorem claim_C1_run_frame {σ φ : Type} (S : Subsys σ φ) (gb : Gameboy σ φ) :
    (runFrame S true gb).1.sys = S.lcdFrameEnd ((machineCycle S)^[17556] gb.sys) ∧
    (runFrame S true gb).2 = [S.lcdFrame ((runFrame S true gb).1.sys)] ∧
    (runFrame S true gb).2.length = 1 ∧
    (runFrame S true gb).1.frame = gb.frame + 1 := by
  refine ⟨?_, rfl, rfl, rfl⟩
  show S.lcdFrameEnd (runLoop S 17556 gb.sys) = _
  rw [runLoop_eq_iterate]

/-! ### The audio subsystem (`audio.go`) and the claimed five-step cycle -/

/-- `tickClock` from audio.go, restricted to the `tick` counter: the
counter resets once it reaches 4194304 and then increments.  (The `sample`
field and the channel state feed sample emission only and do not influence
the `tick` evolution; `takeSample` is not under `src/`.) -/
def tickClock (t : Nat) : Nat := (if 4194304 ≤ t then 0 else t) + 1

/-- `Audio.EndMachineCycle` from audio.go: four clock ticks per machine
cycle, acting on the `tick` counter. -/
def audioEndMachineCycle (t : Nat) : Nat :=
  tickClock (tickClock (tickClock (tickClock t)))

/-- The audio step never fixes the tick counter: audio state visibly
changes on every machine cycle it is given. -/
lemma audioEndMachineCycle_ne (t : Nat) : audioEndMachineCycle t ≠ t := by
  unfold audioEndMachineCycle tickClock
  split_ifs <;> omega

/-- A machine state paired with the audio tick counter.  The four
orchestrated subsystems hold no reference to an audio object (the `Gameboy`
struct has no audio field), so their steps act on the first component
only. -/
def liftSubsys {σ φ : Type} (S : Subsys σ φ) : Subsys (σ × Nat) φ where
  dispatchExecuteMachineCycle := fun p => (S.dispatchExecuteMachineCycle p.1, p.2)
  memoryExecuteMachineCycle := fun p => (S.memoryExecuteMachineCycle p.1, p.2)
  lcdEndMachineCycle := fun p => (S.lcdEndMachineCycle p.1, p.2)
  timerEndMachineCycle := fun p =>
    (((S.timerEndMachineCycle p.1).1, p.2), (S.timerEndMachineCycle p.1).2)
  raiseTimerInterrupt := fun p => (S.raiseTimerInterrupt p.1, p.2)
  lcdFrameEnd := fun p => (S.lcdFrameEnd p.1, p.2)
  lcdFrame := fun p => S.lcdFrame p.1

/-- `Audio.EndMachineCycle` on the paired state. -/
def audioPairStep {σ : Type} (p : σ × Nat) : σ × Nat :=
  (p.1, audioEndMachineCycle p.2)

/-- The spec's claimed per-cycle step: the sequential composition of the
five subsystem steps CPU, Memory (DMA), LCD, Timer and then Audio. -/
def machineCycleClaimed {σ φ : Type} (S : Subsys σ φ) (audioStep : σ → σ)
    (s : σ) : σ :=
  audioStep (machineCycle S s)

/-- The orchestrated cycle never touches the audio component, whatever the
four subsystem steps are. -/
lemma machineCycle_lift {σ φ : Type} (S : Subsys σ φ) (s : σ) (t : Nat) :
    machineCycle (liftSubsys S) (s, t) = (machineCycle S s, t) := by
  simp only [machineCycle, liftSubsys]
  split <;> rfl

/-- Trivial concrete subsystem steps used to instantiate the orchestrator
theorems at a concrete state type. -/
def trivialSubsys : Subsys Unit Unit where
  dispatchExecuteMachineCycle := id
  memoryExecuteMachineCycle := id
  lcdEndMachineCycle := id
  timerEndMachineCycle := fun s => (s, false)
  raiseTimerInterrupt := id
  lcdFrameEnd := id
  lcdFrame := fun _ => ()

/-- C2 (counterexample): the per-cycle step of the code is not the claimed
five-step composition ending with the audio step: the loop body of
`runFrame` contains no audio call, so on a state whose audio tick counter
is 0 the claimed composition yields counter 4 while the code leaves it 0. -/
theorem claim_C2_counterexample :
    machineCycleClaimed (liftSubsys trivialSubsys) audioPairStep ((), 0) ≠
      machineCycle (liftSubsys trivialSubsys) ((), 0) := by
  decide

/-- C2 (amended): the per-cycle step equals the sequential composition of
the four subsystem steps CPU, then Memory (DMA), then LCD, then Timer (with
the timer's interrupt request folded into IF); the audio component of the
state is left untouched by the cycle. -/
theorem claim_C2_cycle_is_four_step_composition {σ φ : Type}
    (S : Subsys σ φ) (s : σ) (t : Nat) :
    machineCycle S s =
      (fun u => if (S.timerEndMachineCycle u).2
        then S.raiseTimerInterrupt (S.timerEndMachineCycle u).1
        else (S.timerEndMachineCycle u).1)
        (S.lcdEndMachineCycle
          (S.memoryExecuteMachineCycle (S.dispatchExecuteMachineCycle s))) ∧
    machineCycle (liftSubsys S) (s, t) = (machineCycle S s, t) :=
  ⟨rfl, machineCycle_lift S s t⟩

/-! ### The joypad (`ButtonAction` in the orchestrator source) -/

/-- Modelled from the spec: the `ui.Button` enumeration is not under
`src/`; the spec lists the button events {Up, Down, Left, Right, A, B,
Start, Select}. -/
inductive Button where
  | Up
  | Down
  | Left
  | Right
  | A
  | B
  | Start
  | Select
  deriving DecidableEq

/-- The state touched by `ButtonAction`: the two active-low joypad shadow
nibbles and the interrupt flag byte owned by the memory, and the CPU run
state reached through `dispatch.Start()`. -/
structure JoypadState where
  buttonInput : Nat
  directionInput : Nat
  IF : Nat
  stopped : Bool
  deriving DecidableEq

/-- Modelled from the spec: `dispatch.Start()` is not under `src/`; per the
spec (STOP exits on a button event) it clears the Stopped run mode. -/
def dispatchStart (gb : JoypadState) : JoypadState :=
  { gb with stopped := false }

/-- `Gameboy.ButtonAction` from the orchestrator source: unconditionally
starts the CPU, then clears (`&^=`, here `&&&` with the byte complement)
or sets (`|=`) the active-low bit of the corresponding nibble. -/
def ButtonAction (gb : JoypadState) (b : Button) (pressed : Bool) : JoypadState :=
  let gb := dispatchStart gb
  let gb :=
    if b = Button.Start then
      if pressed then { gb with buttonInput := gb.buttonInput &&& 0xF7 }
      else { gb with buttonInput := gb.buttonInput ||| 0x8 }
    else if b = Button.Select then
      if pressed then { gb with buttonInput := gb.buttonInput &&& 0xFB }
      else { gb with buttonInput := gb.buttonInput ||| 0x4 }
    else gb
  let gb :=
    if b = Button.B then
      if pressed then { gb with buttonInput := gb.buttonInput &&& 0xFD }
      else { gb with buttonInput := gb.buttonInput ||| 0x2 }
    else gb
  let gb :=
    if b = Button.A then
      if pressed then { gb with buttonInput := gb.buttonInput &&& 0xFE }
      else { gb with buttonInput := gb.buttonInput ||| 0x1 }
    else gb
  let gb :=
    if b = Button.Down then
      if pressed then { gb with directionInput := gb.directionInput &&& 0xF7 }
      else { gb with directionInput := gb.directionInput ||| 0x8 }
    else if b = Button.Up then
      if pressed then { gb with directionInput := gb.directionInput &&& 0xFB }
      else { gb with directionInput := gb.directionInput ||| 0x4 }
    else gb
  let gb :=
    if b = Button.Left then
      if pressed then { gb with directionInput := gb.directionInput &&& 0xFD }
      else { gb with directionInput := gb.directionInput ||| 0x2 }
    else if b = Button.Right then
      if pressed then { gb with directionInput := gb.directionInput &&& 0xFE }
      else { gb with directionInput := gb.directionInput ||| 0x1 }
    else gb
  gb

/-- C8: delivering the same button-press twice leaves the whole joypad
state exactly as after one delivery (the bit-clear is idempotent), and the
interrupt flag byte is never touched, so the pair of events raises at most
one (in fact zero) joypad interrupts. -/
theorem claim_C8_button_press_idempotent (gb : JoypadState) (b : Button) :
    ButtonAction (ButtonAction gb b true) b true = ButtonAction gb b true ∧
    (ButtonAction gb b true).IF = gb.IF ∧
    (ButtonAction (ButtonAction gb b true) b true).IF = gb.IF := by
  cases b <;>
    simp [ButtonAction, dispatchStart, Nat.and_assoc]

/-- C10: `ButtonAction` invokes `dispatch.Start()` for every delivered
event — any button, pressed or released — so after any event the CPU is no
longer in Stopped mode; in particular a key release restarts a stopped
CPU. -/
theorem claim_C10_any_event_starts_cpu (gb : JoypadState) (b : Button)
    (pressed : Bool) :
    (ButtonAction gb b pressed).stopped = false := by
  cases b <;> cases pressed <;> simp [ButtonAction, dispatchStart]

end Goomba
